import Mathlib

/-!
Verification of the NDI dynamic-library discovery, loading, validation and
lifecycle subsystem of `src/plugin-main.cpp` (DistroAV plugin bootstrap).

The C++ code is shallowly embedded: pure helpers (version parsing and
comparison, path selection) become Lean functions over `String`/`List Char`;
the stateful loader/lifecycle code (globals `loaded_lib` and `ndiLib`,
`load_ndilib`, `obs_module_load`, `obs_module_unload`) becomes explicit
state passing over a record `St`, with the OS loader (QLibrary::load,
resolve, the NDI entry point) abstracted as an oracle of the external
library's behaviour.  Effects that matter to the claims (allocations,
`delete` calls, `destroy()` calls, load attempts, registrations) are
recorded as traces in the state.
-/

namespace DistroAV

/-! ### Characters, splitting, and QString::toInt

`QString::split('.')` with the default KeepEmptyParts behaviour, and
`QString::toInt()` (base 10: optional surrounding whitespace, optional
sign, all remaining characters decimal digits, value within the 32-bit
int range; every failure yields 0).
-/

/-- Model of `QString::split(sep)` (Qt::KeepEmptyParts, the default):
splitting the empty string yields one empty part. -/
def qSplit (sep : Char) : List Char → List (List Char)
  | [] => [[]]
  | c :: cs =>
    match qSplit sep cs with
    | [] => [[]]
    | p :: ps => if c == sep then [] :: p :: ps else (c :: p) :: ps

/-- `QString::split('.')` on a `String`. -/
def qSplitDot (s : String) : List String :=
  (qSplit '.' s.toList).map String.mk

/-- Decimal value of a digit run (most significant first). -/
def digitsToNat (cs : List Char) : Nat :=
  cs.foldl (fun a c => a * 10 + (c.toNat - 48)) 0

/-- A nonempty run of decimal digits. -/
def decDigits (cs : List Char) : Bool :=
  !cs.isEmpty && cs.all Char.isDigit

/-- Strip leading and trailing whitespace (QString::toInt ignores it). -/
def trimChars (cs : List Char) : List Char :=
  ((cs.dropWhile Char.isWhitespace).reverse.dropWhile Char.isWhitespace).reverse

/-- Digits to a signed 32-bit value; out-of-range or malformed input is 0,
exactly as `QString::toInt` reports failure by returning 0. -/
def intFromDigits (neg : Bool) (ds : List Char) : Int :=
  if decDigits ds && decide (digitsToNat ds ≤ (if neg then 2147483648 else 2147483647)) then
    (if neg then -(digitsToNat ds : Int) else (digitsToNat ds : Int))
  else 0

/-- Model of `QString::toInt()` on the character list: optional sign after
trimming, then a digit run in 32-bit range; anything else is 0. -/
def qToIntChars (cs : List Char) : Int :=
  match trimChars cs with
  | [] => 0
  | c :: ds =>
    if c == '+' then intFromDigits false ds
    else if c == '-' then intFromDigits true ds
    else intFromDigits false (c :: ds)

/-- `QString::toInt()` on a `String`. -/
def qToInt (s : String) : Int := qToIntChars s.toList

/-! ### is_version_supported (plugin-main.cpp lines 116-134) -/

/-- `(i < parts.size()) ? parts[i].toInt() : 0` — the per-field value,
missing fields reading as 0. -/
def partAt (ps : List String) (i : Nat) : Int :=
  if h : i < ps.length then qToInt (ps.get ⟨i, h⟩) else 0

/-- The comparison loop of `is_version_supported`: `rem` iterations remain,
`i` is the current field index.  First field where the candidate exceeds
the minimum decides true, first field below decides false, exhausting the
loop yields true. -/
def versionCmpFrom (vps mps : List String) : Nat → Nat → Bool
  | 0, _ => true
  | rem + 1, i =>
    if partAt vps i > partAt mps i then true
    else if partAt vps i < partAt mps i then false
    else versionCmpFrom vps mps rem (i + 1)

/-- `is_version_supported(version, min_version)`: split both on '.', then
compare field by field up to the longer length. -/
def is_version_supported (version min_version : String) : Bool :=
  let version_parts := qSplitDot version
  let min_version_parts := qSplitDot min_version
  let max_parts := max version_parts.length min_version_parts.length
  versionCmpFrom version_parts min_version_parts max_parts 0

/-- Spec-side formulation of the version comparison, following the spec's
words: look at the first index in `[0, N)` (N the longer length) where the
two parsed fields differ — missing fields read as 0 — and report supported
exactly when the candidate's field is the larger one; if no index differs,
report supported. -/
def version_supported_spec (version min_version : String) : Bool :=
  let vps := qSplitDot version
  let mps := qSplitDot min_version
  let n := max vps.length mps.length
  match (List.range n).find? (fun i => decide (partAt vps i ≠ partAt mps i)) with
  | none => true
  | some i => decide (partAt mps i < partAt vps i)

/-! ### Linux locator (plugin-main.cpp lines 257-283)

On Linux the code scans every candidate directory, keeps the files whose
names pass the QDir name filter "libndi.so.*", matches each against the
QRegularExpression "libndi\.so\.(\d+)" (an unanchored search: the first
position where the literal prefix is followed by at least one digit, the
capture being the maximal digit run there), parses the captured digits
with toInt, and remembers the path with the strictly largest version seen
so far, `max_version` starting at 0.  A directory here is modelled as its
name paired with its file listing (the result of QDir::entryList), and
QDir::absoluteFilePath is modelled as "dir/file". -/

/-- Does `pre` occur at the very start of `cs`?  (Models both the glob
"libndi.so.*" and the anchored head of a regex search position.) -/
def hasLead : List Char → List Char → Bool
  | [], _ => true
  | _ :: _, [] => false
  | p :: ps, c :: cs => p == c && hasLead ps cs

/-- The fixed prefix of the Linux library file-name pattern. -/
def ndiSoLead : List Char := "libndi.so.".toList

/-- QDir name filter "libndi.so.*": the name starts with "libndi.so.". -/
def nameMatchesNdiGlob (f : String) : Bool := hasLead ndiSoLead f.toList

/-- A match of "libndi\.so\.(\d+)" starting at this position: the literal
prefix followed by at least one digit; the capture is the maximal digit
run. -/
def ndiMatchAt (cs : List Char) : Option (List Char) :=
  if hasLead ndiSoLead cs then
    let ds := (cs.drop ndiSoLead.length).takeWhile Char.isDigit
    if ds.isEmpty then none else some ds
  else none

/-- Leftmost match of "libndi\.so\.(\d+)" in a file name (the PCRE search
tries every start position left to right). -/
def findNdiMatch : List Char → Option (List Char)
  | [] => none
  | c :: cs =>
    match ndiMatchAt (c :: cs) with
    | some ds => some ds
    | none => findNdiMatch cs

/-- The version number the regex extracts from a file name, if any. -/
def fileVersion (f : String) : Option Int :=
  (findNdiMatch f.toList).map (fun ds => qToInt (String.mk ds))

/-- The two locals of the Linux scan: `lib_path` (initially empty) and
`max_version` (initially 0). -/
structure LinuxScanSt where
  lib_path : String
  max_version : Int
deriving DecidableEq

/-- Inner loop body: one file of directory `dir`. -/
def scanFile (dir : String) (st : LinuxScanSt) (f : String) : LinuxScanSt :=
  match findNdiMatch f.toList with
  | some ds =>
    let version := qToInt (String.mk ds)
    if version > st.max_version then
      { lib_path := dir ++ "/" ++ f, max_version := version }
    else st
  | none => st

/-- Outer loop body: one candidate directory (name-filtered file list). -/
def scanDir (st : LinuxScanSt) (d : String × List String) : LinuxScanSt :=
  (d.2.filter nameMatchesNdiGlob).foldl (scanFile d.1) st

/-- The whole Linux selection loop over the candidate directories. -/
def linux_locate (dirs : List (String × List String)) : LinuxScanSt :=
  dirs.foldl scanDir { lib_path := "", max_version := 0 }

/-- All (path, parsed version) pairs the scan can see, in scan order. -/
def dirEntries (d : String × List String) : List (String × Int) :=
  (d.2.filter nameMatchesNdiGlob).filterMap
    (fun f => (fileVersion f).map (fun v => (d.1 ++ "/" ++ f, v)))

/-- Candidate (path, version) pairs across all directories. -/
def allEntries (dirs : List (String × List String)) : List (String × Int) :=
  dirs.flatMap dirEntries

/-- One comparison step of the running maximum. -/
def scanStep (st : LinuxScanSt) (e : String × Int) : LinuxScanSt :=
  if e.2 > st.max_version then { lib_path := e.1, max_version := e.2 } else st

/-- The three-directory example of the spec, spread across directories. -/
def exDirs : List (String × List String) :=
  [("d1", ["libndi.so.3"]), ("d2", ["libndi.so.10"]), ("d3", ["libndi.so.2"])]

/-! ### macOS/Windows locator (plugin-main.cpp lines 222-294, non-Linux arm)

The candidate list is built in priority order: the application-relative
bundled Frameworks directory (QDir::cleanPath(applicationDirPath() +
"/../Frameworks"), an input from the host environment, passed in here
already cleaned), then the NDI_RUNTIME_DIR_V6 environment value if
non-empty, then the legacy NDILIB_REDIST_FOLDER value if non-empty, then
the system directories /usr/lib and /usr/local/lib (Q_OS_MACOS arm; the
Linux-only Flatpak directory is absent), then the vendor directories.
`qgetenv` yields the empty string for an unset variable, so empty and
unset coincide.  On these platforms the loop probes dir/NDILIB_LIBRARY_NAME
(the macro names the platform's single fixed library file name and comes
from headers outside this file, so it is a parameter here) and stops at
the first candidate that exists and is a regular file; `fileIsPresent`
models QFileInfo's exists() && isFile() conjunction. -/

/-- QDir::absoluteFilePath of the fixed library name inside a directory. -/
def probePath (dir libName : String) : String := dir ++ "/" ++ libName

/-- The ordered candidate directory list of the non-Linux arm. -/
def macLocations (frameworksDir v6 redist : String) : List String :=
  [frameworksDir]
    ++ (if v6 = "" then [] else [v6])
    ++ (if redist = "" then [] else [redist])
    ++ ["/usr/lib", "/usr/local/lib",
        "/Library/NDI SDK for Apple/lib", "/Library/NDI/lib",
        "/opt/homebrew/opt/libndi/lib"]

/-- The non-Linux selection loop: first candidate whose probe path exists
and is a regular file wins (the loop breaks); no candidate leaves the
selected path empty. -/
def mac_locate (libName : String) (fileIsPresent : String → Bool) :
    List String → String
  | [] => ""
  | d :: ds =>
    if fileIsPresent (probePath d libName) then probePath d libName
    else mac_locate libName fileIsPresent ds

/-! ### Loader and lifecycle (plugin-main.cpp lines 48-49, 136-218, 295-324)

The globals `loaded_lib` (a QLibrary pointer) and `ndiLib` (the interface
pointer) and the observable effects of the code are a state record:
handles are numbered by an allocation counter (`new QLibrary` yields the
next number), `live` lists the handles currently allocated and not yet
deleted, `attempts` the paths a QLibrary was constructed and load()ed
for, `deletes` every handle passed to delete (in order — a handle
occurring twice is a double free), `destroys` the number of
ndiLib->destroy() calls, and `registrations` the number of
obs_register_source/obs_register_output calls.  The external NDI library
is an oracle: whether QLibrary::load() succeeds on a path, whether
resolve("NDIlib_v6_load") finds the entry symbol there, and what the
entry function returns (none models a null interface pointer).  The
interface pointer itself carries the behaviour the lifecycle consults:
the result of initialize() and the string version() reports. -/

/-- Behaviour of the interface pointer the entry function returns. -/
structure Iface where
  initializeOk : Bool
  versionStr : String
deriving DecidableEq

/-- Behaviour of the OS loader and of the external library image. -/
structure Oracle where
  loadOk : String → Bool
  hasEntry : String → Bool
  entry : String → Option Iface

/-- The plugin's global state plus effect traces. -/
structure St where
  loaded_lib : Option Nat
  ndiLib : Option Iface
  nextHandle : Nat
  live : List Nat
  attempts : List String
  deletes : List Nat
  destroys : Nat
  registrations : Nat
deriving DecidableEq

/-- Both globals are null before any load attempt. -/
def initSt : St :=
  { loaded_lib := none, ndiLib := none, nextHandle := 0, live := [],
    attempts := [], deletes := [], destroys := 0, registrations := 0 }

/-- PLUGIN_MIN_NDI_VERSION. -/
def min_ndi_version : String := "6.0.0"

/-! The version-shortening regex of obs_module_load (line 174):
QRegularExpression "(\d+\.\d+(\.\d+)?(\.\d+)?$)" applied to version(),
captured(1).  The pattern is anchored at the end of the subject, so a
match starting at position i succeeds exactly when the whole suffix from
i consists of 2 to 4 nonempty digit runs separated by single dots; PCRE
takes the leftmost such start position, and captured(1) is that suffix.
No match yields a null QString, i.e. "" after UTF-8 conversion.  (The
PCRE detail that "$" may also match before one final newline is not
modelled; NDI version strings carry no newline.) -/

/-- Does this whole suffix match "\d+\.\d+(\.\d+)?(\.\d+)?" exactly? -/
def isShortVersionForm (cs : List Char) : Bool :=
  let ps := qSplit '.' cs
  decide (2 ≤ ps.length) && decide (ps.length ≤ 4)
    && ps.all (fun p => !p.isEmpty && p.all Char.isDigit)

/-- Leftmost suffix of the subject matching the anchored pattern. -/
def findVersionSuffix : List Char → Option (List Char)
  | [] => none
  | c :: cs =>
    if isShortVersionForm (c :: cs) then some (c :: cs)
    else findVersionSuffix cs

/-- ndi_version_short: the captured final dotted numeric group. -/
def ndi_version_short (s : String) : String :=
  match findVersionSuffix s.toList with
  | some cs => String.mk cs
  | none => ""

/-- load_ndilib, from the already-selected path (empty = no candidate):
construct a QLibrary (allocating the next handle and storing it in the
global), attempt load(); on load failure delete the QLibrary and null the
global; on success resolve the entry symbol — if present call it and
return its result, if absent fall through to the not-found return WITHOUT
deleting or nulling (the source's ERR-405 arm has no cleanup). -/
def load_ndilib_from (ora : Oracle) (lib_path : String) (s : St) :
    Option Iface × St :=
  if lib_path = "" then (none, s)
  else
    let h := s.nextHandle
    let s1 : St :=
      { s with loaded_lib := some h, nextHandle := h + 1,
               live := s.live ++ [h], attempts := s.attempts ++ [lib_path] }
    if ora.loadOk lib_path then
      if ora.hasEntry lib_path then (ora.entry lib_path, s1)
      else (none, s1)
    else
      (none, { s1 with loaded_lib := none, live := s1.live.erase h,
                       deletes := s1.deletes ++ [h] })

/-- load_ndilib on the non-Linux platforms: locator then loader. -/
def load_ndilib_mac (ora : Oracle) (libName fw v6 redist : String)
    (fileIsPresent : String → Bool) (s : St) : Option Iface × St :=
  load_ndilib_from ora
    (mac_locate libName fileIsPresent (macLocations fw v6 redist)) s

/-- obs_module_load: assign the load result to the global ndiLib; a null
interface pointer declines the load (the GUI fallback dialog is outside
this subsystem); a failing initialize() declines; an unsupported
shortened version declines; otherwise the three capability objects are
registered and the load succeeds.  None of the declining arms touches the
loaded handle. -/
def obs_module_load (ora : Oracle) (libName fw v6 redist : String)
    (fileIsPresent : String → Bool) (s : St) : Bool × St :=
  let r := load_ndilib_mac ora libName fw v6 redist fileIsPresent s
  let s2 : St := { r.2 with ndiLib := r.1 }
  match r.1 with
  | none => (false, s2)
  | some iface =>
    if iface.initializeOk = false then (false, s2)
    else if is_version_supported (ndi_version_short iface.versionStr)
              min_ndi_version = false then (false, s2)
    else (true, { s2 with registrations := s2.registrations + 3 })

/-- obs_module_unload: if ndiLib is non-null call destroy() and null it;
then, if loaded_lib is non-null, delete it — the source does NOT null
loaded_lib after the delete. -/
def obs_module_unload (s : St) : St :=
  let s1 : St :=
    match s.ndiLib with
    | some _ => { s with destroys := s.destroys + 1, ndiLib := none }
    | none => s
  match s1.loaded_lib with
  | some h => { s1 with deletes := s1.deletes ++ [h], live := s1.live.erase h }
  | none => s1

/-- A host-driven lifecycle event: one module-load hook invocation (with
the environment it sees) or one module-unload hook invocation. -/
inductive Op where
  | load (ora : Oracle) (libName fw v6 redist : String)
         (fileIsPresent : String → Bool)
  | unload

/-- Is this event a load? -/
def Op.isLoad : Op → Bool
  | .load _ _ _ _ _ _ => true
  | .unload => false

/-- Apply one lifecycle event to the state. -/
def stepOp (s : St) : Op → St
  | .load ora libName fw v6 redist fileIsPresent =>
    (obs_module_load ora libName fw v6 redist fileIsPresent s).2
  | .unload => obs_module_unload s

/-- The state after a sequence of lifecycle events from the initial
(pre-load) state. -/
def run (ops : List Op) : St := ops.foldl stepOp initSt

/-! Concrete oracles and environments used by the counterexamples and
witnesses. -/

/-- Every path probes as present. -/
def fsAll : String → Bool := fun _ => true

/-- A library whose image loads, whose entry symbol resolves, and whose
interface initializes and reports version 6.2.1. -/
def oraGood : Oracle :=
  { loadOk := fun _ => true, hasEntry := fun _ => true,
    entry := fun _ => some { initializeOk := true, versionStr := "6.2.1" } }

/-- A library image that loads but exports no NDIlib_v6_load symbol. -/
def oraNoEntry : Oracle :=
  { loadOk := fun _ => true, hasEntry := fun _ => false,
    entry := fun _ => none }

/-- A library whose interface fails its initialize() CPU probe. -/
def oraInitFail : Oracle :=
  { loadOk := fun _ => true, hasEntry := fun _ => true,
    entry := fun _ => some { initializeOk := false, versionStr := "6.0.0" } }

/-- A library reporting a version below the required minimum. -/
def oraOldVer : Oracle :=
  { loadOk := fun _ => true, hasEntry := fun _ => true,
    entry := fun _ => some { initializeOk := true, versionStr := "5.9.1" } }

/-- An image the OS loader rejects at the bundled path but would accept
at the system path. -/
def oraSelective : Oracle :=
  { loadOk := fun p => p == "/usr/lib/libndi.dylib",
    hasEntry := fun _ => true,
    entry := fun _ => some { initializeOk := true, versionStr := "6.2.1" } }

/-- Both the bundled and the system file exist. -/
def fsBundledAndSystem : String → Bool :=
  fun p => p == "/fw/libndi.dylib" || p == "/usr/lib/libndi.dylib"

/-- The state after a fully successful load (bundled file, good library). -/
def sLoaded : St :=
  (obs_module_load oraGood "libndi.dylib" "/fw" "" "" fsAll initSt).2

/-! #### Reachable-state invariant of the load/teardown lifecycle -/

/-- The invariant maintained across host-legal event sequences: at most
one live handle, every live handle is the one the global holds, and a
non-null interface pointer implies some handle is live. -/
def StInv (s : St) : Prop :=
  s.live.length ≤ 1
  ∧ (∀ h ∈ s.live, s.loaded_lib = some h)
  ∧ (s.ndiLib ≠ none → s.live ≠ [])

/-- The concrete host-legal sequence: one successful load, one unload. -/
def exOps : List Op :=
  [Op.load oraGood "libndi.dylib" "/fw" "" "" fsAll, Op.unload]

/-! #### Lemmas about the comparison loop -/

theorem versionCmpFrom_eq_find (vps mps : List String) (rem i : Nat) :
    versionCmpFrom vps mps rem i =
      (match (List.range' i rem).find? (fun j => decide (partAt vps j ≠ partAt mps j)) with
       | none => true
       | some j => decide (partAt mps j < partAt vps j)) := by
  induction rem generalizing i with
  | zero => simp [versionCmpFrom, List.range']
  | succ rem ih =>
    rw [List.range'_succ, List.find?_cons]
    by_cases h : partAt vps i = partAt mps i
    · simp [versionCmpFrom, h, lt_irrefl, ih]
    · rcases lt_or_gt_of_ne h with hlt | hgt
      · simp [versionCmpFrom, h, hlt, not_lt.mpr (le_of_lt hlt)]
      · simp [versionCmpFrom, h, hgt]

theorem is_version_supported_eq_spec (v m : String) :
    is_version_supported v m = version_supported_spec v m := by
  simp only [is_version_supported, version_supported_spec]
  rw [List.range_eq_range', versionCmpFrom_eq_find]

theorem is_version_supported_self (s : String) :
    is_version_supported s s = true := by
  rw [is_version_supported_eq_spec]
  simp only [version_supported_spec]
  rw [List.find?_eq_none.mpr]
  intro i _
  simp

/-- C1: `is_version_supported` splits both strings on '.', compares field
by field up to the longer length with missing fields read as 0, decides
true at the first field where the candidate exceeds the minimum, false at
the first field where it is below, and true when every field agrees; in
particular identical strings compare as supported, and "6.0" against
"6.0.0.1" compares as unsupported. -/
theorem is_version_supported_correct :
    (∀ v m : String, is_version_supported v m = version_supported_spec v m)
    ∧ (∀ s : String, is_version_supported s s = true)
    ∧ is_version_supported "6.0" "6.0.0.1" = false := by
  refine ⟨is_version_supported_eq_spec, is_version_supported_self, ?_⟩
  decide

/-! #### Totality of the field parser: unparsable fields read as 0 -/

theorem toList_mk (p : List Char) : (String.mk p).toList = p := rfl

theorem qSplit_ne_nil (sep : Char) (cs : List Char) : qSplit sep cs ≠ [] := by
  cases cs with
  | nil => simp [qSplit]
  | cons c cs =>
    simp only [qSplit]
    split
    · simp
    · split <;> simp

theorem qSplit_mem_subset (sep : Char) (cs : List Char) :
    ∀ p ∈ qSplit sep cs, ∀ c ∈ p, c ∈ cs := by
  induction cs with
  | nil =>
    intro p hp c hc
    simp only [qSplit, List.mem_singleton] at hp
    subst hp
    simp at hc
  | cons a cs ih =>
    intro p hp c hc
    rcases h : qSplit sep cs with _ | ⟨q, qs⟩
    · exact absurd h (qSplit_ne_nil sep cs)
    · simp only [qSplit, h] at hp
      by_cases ha : a == sep
      · rw [if_pos ha] at hp
        rcases List.mem_cons.mp hp with hp | hp
        · subst hp; simp at hc
        · exact List.mem_cons_of_mem a (ih p (h ▸ hp) c hc)
      · rw [if_neg ha] at hp
        rcases List.mem_cons.mp hp with hp | hp
        · subst hp
          rcases List.mem_cons.mp hc with hc | hc
          · exact hc ▸ List.mem_cons_self a cs
          · exact List.mem_cons_of_mem a
              (ih q (h ▸ List.mem_cons_self q qs) c hc)
        · exact List.mem_cons_of_mem a
            (ih p (h ▸ List.mem_cons_of_mem q hp) c hc)

theorem intFromDigits_zero_of_nodigits (b : Bool) (ds : List Char)
    (h : ∀ c ∈ ds, c.isDigit = false) : intFromDigits b ds = 0 := by
  cases ds with
  | nil => simp [intFromDigits, decDigits]
  | cons d ds =>
    have hd : d.isDigit = false := h d (List.mem_cons_self d ds)
    simp [intFromDigits, decDigits, hd]

theorem trimChars_subset (cs : List Char) : ∀ c ∈ trimChars cs, c ∈ cs := by
  intro c hc
  simp only [trimChars, List.mem_reverse] at hc
  have h1 : c ∈ (cs.dropWhile Char.isWhitespace).reverse :=
    (List.dropWhile_sublist _).subset hc
  rw [List.mem_reverse] at h1
  exact (List.dropWhile_sublist _).subset h1

theorem qToIntChars_zero_of_nodigits (cs : List Char)
    (h : ∀ c ∈ cs, c.isDigit = false) : qToIntChars cs = 0 := by
  have htr : ∀ c ∈ trimChars cs, c.isDigit = false :=
    fun c hc => h c (trimChars_subset cs c hc)
  unfold qToIntChars
  rcases ht : trimChars cs with _ | ⟨c, ds⟩
  · rfl
  · rw [ht] at htr
    have hds : ∀ x ∈ ds, x.isDigit = false :=
      fun x hx => htr x (List.mem_cons_of_mem c hx)
    by_cases h1 : c == '+'
    · simp [h1, intFromDigits_zero_of_nodigits false ds hds]
    · by_cases h2 : c == '-'
      · simp [h1, h2, intFromDigits_zero_of_nodigits true ds hds]
      · simp [h1, h2, intFromDigits_zero_of_nodigits false (c :: ds) htr]

theorem qToInt_zero_of_nodigits (s : String)
    (h : s.toList.all (fun c => !c.isDigit) = true) : qToInt s = 0 := by
  apply qToIntChars_zero_of_nodigits
  intro c hc
  have hb := List.all_eq_true.mp h c hc
  simpa using hb

theorem partAt_zero_of_forall (l : List String)
    (hl : ∀ x ∈ l, qToInt x = 0) (i : Nat) : partAt l i = 0 := by
  unfold partAt
  split
  · exact hl _ (List.get_mem _ _ _)
  · rfl

theorem partAt_qSplitDot_zero (v : String)
    (h : ∀ c ∈ v.toList, c.isDigit = false) (i : Nat) :
    partAt (qSplitDot v) i = 0 := by
  apply partAt_zero_of_forall
  intro x hx
  rcases List.mem_map.mp (by simpa only [qSplitDot] using hx) with ⟨p, hpmem, hpe⟩
  rw [← hpe]
  show qToIntChars p = 0
  apply qToIntChars_zero_of_nodigits
  intro c hc
  exact h c (qSplit_mem_subset '.' v.toList p hpmem c hc)

theorem partAt_zero_zero (i : Nat) : partAt (qSplitDot "0.0") i = 0 := by
  have hsplit : qSplitDot "0.0" = ["0", "0"] := by decide
  rw [hsplit]
  match i with
  | 0 => decide
  | 1 => decide
  | n + 2 => rw [partAt, dif_neg (by simp)]

/-- C9: `is_version_supported` is total: a field that does not parse as an
integer reads as 0 (`QString::toInt` returns 0 on failure), so any
digit-free candidate string parses to 0 in every field and compares as
supported against the minimum "0.0". -/
theorem version_parse_nonnumeric_zero :
    (∀ s : String, s.toList.all (fun c => !c.isDigit) = true → qToInt s = 0)
    ∧ (∀ v : String, v.toList.all (fun c => !c.isDigit) = true →
        is_version_supported v "0.0" = true) := by
  constructor
  · exact qToInt_zero_of_nodigits
  · intro v h
    have hnod : ∀ c ∈ v.toList, c.isDigit = false := by
      intro c hc
      have hb := List.all_eq_true.mp h c hc
      simpa using hb
    rw [is_version_supported_eq_spec]
    simp only [version_supported_spec]
    rw [List.find?_eq_none.mpr]
    intro i _
    simp [partAt_qSplitDot_zero v hnod i, partAt_zero_zero i]

/-- Witness for C9 at the concrete digit-free candidate "abc". -/
theorem version_parse_nonnumeric_zero_witness :
    ("abc".toList.all (fun c => !c.isDigit) = true)
    ∧ is_version_supported "abc" "0.0" = true :=
  ⟨by decide, version_parse_nonnumeric_zero.2 "abc" (by decide)⟩

theorem scanFile_eq_scanStep (dir : String) (st : LinuxScanSt) (f : String) :
    scanFile dir st f =
      match fileVersion f with
      | some v => scanStep st (dir ++ "/" ++ f, v)
      | none => st := by
  unfold scanFile fileVersion scanStep
  rcases h : findNdiMatch f.toList with _ | ds <;> simp [h]

theorem foldl_scanFile_eq (dir : String) (l : List String) (st : LinuxScanSt) :
    l.foldl (scanFile dir) st =
      (l.filterMap (fun f => (fileVersion f).map (fun v => (dir ++ "/" ++ f, v)))).foldl
        scanStep st := by
  induction l generalizing st with
  | nil => rfl
  | cons f l ih =>
    rw [List.foldl_cons, List.filterMap_cons]
    rcases h : fileVersion f with _ | v
    · rw [scanFile_eq_scanStep, h]
      exact ih st
    · rw [scanFile_eq_scanStep, h]
      exact ih _

theorem foldl_scanDir_eq (dirs : List (String × List String)) (st : LinuxScanSt) :
    dirs.foldl scanDir st = (allEntries dirs).foldl scanStep st := by
  induction dirs generalizing st with
  | nil => rfl
  | cons d dirs ih =>
    rw [List.foldl_cons]
    show (dirs.foldl scanDir (scanDir st d)) = _
    rw [ih]
    unfold allEntries
    rw [List.flatMap_cons, List.foldl_append]
    unfold scanDir dirEntries
    rw [foldl_scanFile_eq]

theorem scanStep_max (st : LinuxScanSt) (e : String × Int) :
    (scanStep st e).max_version = max st.max_version e.2 := by
  unfold scanStep
  split
  · rename_i hgt
    exact (max_eq_right (le_of_lt hgt)).symm
  · rename_i hle
    exact (max_eq_left (not_lt.mp hle)).symm

theorem foldl_scanStep_max (l : List (String × Int)) (st : LinuxScanSt) :
    (l.foldl scanStep st).max_version =
      l.foldl (fun a e => max a e.2) st.max_version := by
  induction l generalizing st with
  | nil => rfl
  | cons e l ih =>
    rw [List.foldl_cons, List.foldl_cons, ih, scanStep_max]

theorem scanStep_max_mono (st : LinuxScanSt) (e : String × Int) :
    st.max_version ≤ (scanStep st e).max_version := by
  rw [scanStep_max]; exact le_max_left _ _

theorem foldl_scanStep_selection (l : List (String × Int)) (st : LinuxScanSt) :
    l.foldl scanStep st = st
    ∨ (((l.foldl scanStep st).lib_path, (l.foldl scanStep st).max_version) ∈ l
        ∧ st.max_version < (l.foldl scanStep st).max_version) := by
  induction l generalizing st with
  | nil => exact Or.inl rfl
  | cons e l ih =>
    rw [List.foldl_cons]
    rcases ih (scanStep st e) with h | ⟨hmem, hlt⟩
    · rw [h]
      unfold scanStep
      split
      · rename_i hgt
        exact Or.inr ⟨List.mem_cons_self _ _, hgt⟩
      · exact Or.inl rfl
    · refine Or.inr ⟨List.mem_cons_of_mem e hmem, lt_of_le_of_lt ?_ hlt⟩
      exact scanStep_max_mono st e

/-- C5 counterexample: a lone file libndi.so.0 matches the version-suffix
pattern and is the globally highest-versioned match, yet the scan selects
nothing, because the running maximum starts at 0 and only strictly greater
versions are taken. -/
theorem locate_zero_suffix_not_selected :
    (linux_locate [("d", ["libndi.so.0"])]).lib_path = ""
    ∧ (linux_locate [("d", ["libndi.so.0"])]).lib_path ≠ "d/libndi.so.0" := by
  constructor <;> decide

/-- C5 (amended): the Linux scan visits every candidate directory (its
running maximum equals the fold of max over the parsed versions of all
matches in all directories, not just the first directory with a match),
and whenever that global maximum is positive the selected path is one of
the scanned (path, version) pairs carrying exactly that maximum; with
files .3, .10, .2 spread over three directories the .10 file is selected
(numeric, not lexicographic, comparison).  Files whose parsed suffix is 0
are never selected. -/
theorem linux_locate_global_max :
    (∀ dirs, (linux_locate dirs).max_version =
      (allEntries dirs).foldl (fun a e => max a e.2) 0)
    ∧ (∀ dirs, 0 < (linux_locate dirs).max_version →
        ((linux_locate dirs).lib_path, (linux_locate dirs).max_version)
          ∈ allEntries dirs)
    ∧ linux_locate exDirs = { lib_path := "d2/libndi.so.10", max_version := 10 } := by
  refine ⟨?_, ?_, by decide⟩
  · intro dirs
    unfold linux_locate
    rw [foldl_scanDir_eq, foldl_scanStep_max]
  · intro dirs hpos
    unfold linux_locate at hpos ⊢
    rw [foldl_scanDir_eq] at hpos ⊢
    rcases foldl_scanStep_selection (allEntries dirs) { lib_path := "", max_version := 0 } with h | ⟨hmem, _⟩
    · rw [h] at hpos
      exact absurd hpos (by simp)
    · exact hmem

/-- Witness for C5 at the three-directory example: the global maximum is
positive there and the selected pair is among the scanned entries. -/
theorem linux_locate_global_max_witness :
    (0 < (linux_locate exDirs).max_version)
    ∧ ((linux_locate exDirs).lib_path, (linux_locate exDirs).max_version)
        ∈ allEntries exDirs :=
  ⟨by decide, linux_locate_global_max.2.1 exDirs (by decide)⟩

/-- C6: the non-Linux locator selects the probe path of the first
directory (in priority order) whose fixed-name file exists and is a
regular file — equivalently the List.find? of the candidate list — the
bundled application-relative directory heads the priority list, and when
both the bundled file and a system-directory file exist the bundled one
wins. -/
theorem mac_locate_first_match :
    (∀ (libName : String) (fileIsPresent : String → Bool) (dirs : List String),
      mac_locate libName fileIsPresent dirs =
        (match dirs.find? (fun d => fileIsPresent (probePath d libName)) with
         | some d => probePath d libName
         | none => ""))
    ∧ (∀ fw v6 redist, (macLocations fw v6 redist).head? = some fw)
    ∧ mac_locate "libndi.dylib"
        (fun p => p == probePath "/bundle/Contents/Frameworks" "libndi.dylib"
               || p == probePath "/usr/lib" "libndi.dylib")
        (macLocations "/bundle/Contents/Frameworks" "" "")
      = probePath "/bundle/Contents/Frameworks" "libndi.dylib" := by
  refine ⟨?_, ?_, by decide⟩
  · intro libName fileIsPresent dirs
    induction dirs with
    | nil => rfl
    | cons d ds ih =>
      rw [List.find?_cons]
      by_cases h : fileIsPresent (probePath d libName)
      · simp [mac_locate, h]
      · simp only [Bool.not_eq_true] at h
        simp [mac_locate, h, ih]
  · intro fw v6 redist
    rfl

/-- C2 (the code contradicts it): when the image at the selected path
loads but the entry symbol does not resolve, load_ndilib returns null and
logs, but does NOT delete the just-constructed QLibrary and does NOT null
the global: afterwards the handle is still allocated (live), the global
still holds it, and no delete was issued — unlike the load()-failure arm.
Evaluated at a concrete oracle with a resolvable image and a missing
symbol. -/
theorem load_entry_missing_keeps_handle :
    ((load_ndilib_from oraNoEntry "/usr/lib/libndi.dylib" initSt).1 = none)
    ∧ (load_ndilib_from oraNoEntry "/usr/lib/libndi.dylib" initSt).2.loaded_lib = some 0
    ∧ (load_ndilib_from oraNoEntry "/usr/lib/libndi.dylib" initSt).2.live = [0]
    ∧ (load_ndilib_from oraNoEntry "/usr/lib/libndi.dylib" initSt).2.deletes = [] := by
  refine ⟨rfl, rfl, rfl, rfl⟩

/-- C3 (the code contradicts it): from the state after a successful load,
the first obs_module_unload calls destroy once, nulls ndiLib, and deletes
the handle — but leaves loaded_lib non-null; a second obs_module_unload
therefore deletes the same handle again (deletes = [0, 0], a double
free), though it does not call destroy again. -/
theorem unload_twice_double_delete :
    (obs_module_unload sLoaded).ndiLib = none
    ∧ (obs_module_unload sLoaded).loaded_lib = some 0
    ∧ (obs_module_unload sLoaded).deletes = [0]
    ∧ (obs_module_unload (obs_module_unload sLoaded)).deletes = [0, 0]
    ∧ (obs_module_unload (obs_module_unload sLoaded)).destroys = 1 := by
  refine ⟨by decide, by decide, by decide, by decide, by decide⟩

/-- C4 counterexample: after a successful load followed by unload, the
claimed invariant "both globals are null after unload completes" fails —
ndiLib is null but loaded_lib still holds the (deleted) handle. -/
theorem post_unload_handle_not_null :
    ¬ ((obs_module_unload sLoaded).loaded_lib = none
        ∧ (obs_module_unload sLoaded).ndiLib = none) := by
  decide

/-- C7 counterexample: with an interface whose initialize() fails, the
module load is declined (false) but the loaded-library handle is NOT
released: it is still live, so "returns false and releases the handle" is
false at this input. -/
theorem init_fail_handle_kept_cex :
    ¬ ((obs_module_load oraInitFail "libndi.dylib" "/fw" "" "" fsAll initSt).1 = false
        → (obs_module_load oraInitFail "libndi.dylib" "/fw" "" "" fsAll initSt).2.live = []) := by
  decide

/-- C8 counterexample: with a reported version 5.9.1 below the minimum
6.0.0, the module load is declined and nothing is registered, but the
loaded-library handle is NOT released (still live), so the claimed
conjunction fails at this input. -/
theorem version_unsupported_handle_kept_cex :
    ¬ ((obs_module_load oraOldVer "libndi.dylib" "/fw" "" "" fsAll initSt).1 = false
        ∧ (obs_module_load oraOldVer "libndi.dylib" "/fw" "" "" fsAll initSt).2.live = []
        ∧ (obs_module_load oraOldVer "libndi.dylib" "/fw" "" "" fsAll initSt).2.registrations = 0) := by
  decide

/-! #### The loader's success frame and the failure arms -/

theorem load_from_some (ora : Oracle) (p : String) (s : St) (iface : Iface)
    (h : (load_ndilib_from ora p s).1 = some iface) :
    (load_ndilib_from ora p s).2.loaded_lib = some s.nextHandle
    ∧ (load_ndilib_from ora p s).2.live = s.live ++ [s.nextHandle]
    ∧ (load_ndilib_from ora p s).2.deletes = s.deletes
    ∧ (load_ndilib_from ora p s).2.registrations = s.registrations
    ∧ ora.entry p = some iface := by
  unfold load_ndilib_from at h ⊢
  by_cases hp : p = ""
  · rw [if_pos hp] at h
    exact absurd h (by simp)
  · rw [if_neg hp] at h ⊢
    by_cases hl : ora.loadOk p = true
    · rw [if_pos hl] at h ⊢
      by_cases he : ora.hasEntry p = true
      · rw [if_pos he] at h ⊢
        exact ⟨rfl, rfl, rfl, rfl, h⟩
      · rw [if_neg he] at h
        exact absurd h (by simp)
    · rw [if_neg hl] at h
      exact absurd h (by simp)

/-- C7 (amended): when the interface pointer was obtained but its
initialize() probe fails, obs_module_load declines (returns false) and
registers nothing, but it does NOT release the loaded-library handle: no
delete is issued, the handle stays live and the globals keep both the
handle and the interface pointer. -/
theorem init_fail_no_release (ora : Oracle) (libName fw v6 redist : String)
    (fileIsPresent : String → Bool) (s : St) (iface : Iface)
    (hsome : (load_ndilib_mac ora libName fw v6 redist fileIsPresent s).1 = some iface)
    (hinit : iface.initializeOk = false) :
    (obs_module_load ora libName fw v6 redist fileIsPresent s).1 = false
    ∧ (obs_module_load ora libName fw v6 redist fileIsPresent s).2.registrations
        = s.registrations
    ∧ (obs_module_load ora libName fw v6 redist fileIsPresent s).2.deletes = s.deletes
    ∧ (obs_module_load ora libName fw v6 redist fileIsPresent s).2.loaded_lib
        = some s.nextHandle
    ∧ (obs_module_load ora libName fw v6 redist fileIsPresent s).2.live
        = s.live ++ [s.nextHandle]
    ∧ (obs_module_load ora libName fw v6 redist fileIsPresent s).2.ndiLib = some iface := by
  simp only [load_ndilib_mac] at hsome
  obtain ⟨hll, hlv, hld, hlr, -⟩ := load_from_some _ _ _ _ hsome
  simp only [obs_module_load, load_ndilib_mac, hsome, hinit]
  exact ⟨rfl, hlr, hld, hll, hlv, rfl⟩

/-- Witness for C7: the concrete failing-initialize oracle. -/
theorem init_fail_no_release_witness :
    ((load_ndilib_mac oraInitFail "libndi.dylib" "/fw" "" "" fsAll initSt).1
        = some { initializeOk := false, versionStr := "6.0.0" })
    ∧ (obs_module_load oraInitFail "libndi.dylib" "/fw" "" "" fsAll initSt).1 = false
    ∧ (obs_module_load oraInitFail "libndi.dylib" "/fw" "" "" fsAll initSt).2.live
        = initSt.live ++ [initSt.nextHandle] :=
  ⟨by decide,
   (init_fail_no_release oraInitFail "libndi.dylib" "/fw" "" "" fsAll initSt
      { initializeOk := false, versionStr := "6.0.0" } (by decide) (by decide)).1,
   (init_fail_no_release oraInitFail "libndi.dylib" "/fw" "" "" fsAll initSt
      { initializeOk := false, versionStr := "6.0.0" } (by decide) (by decide)).2.2.2.2.1⟩

/-- C8 (amended): when the shortened reported version compares below the
required minimum, obs_module_load declines (returns false) and registers
no capability objects, but it does NOT release the loaded-library handle:
no delete is issued, the handle stays live and both globals stay set. -/
theorem version_unsupported_no_release (ora : Oracle) (libName fw v6 redist : String)
    (fileIsPresent : String → Bool) (s : St) (iface : Iface)
    (hsome : (load_ndilib_mac ora libName fw v6 redist fileIsPresent s).1 = some iface)
    (hinit : iface.initializeOk = true)
    (hver : is_version_supported (ndi_version_short iface.versionStr) min_ndi_version
        = false) :
    (obs_module_load ora libName fw v6 redist fileIsPresent s).1 = false
    ∧ (obs_module_load ora libName fw v6 redist fileIsPresent s).2.registrations
        = s.registrations
    ∧ (obs_module_load ora libName fw v6 redist fileIsPresent s).2.deletes = s.deletes
    ∧ (obs_module_load ora libName fw v6 redist fileIsPresent s).2.loaded_lib
        = some s.nextHandle
    ∧ (obs_module_load ora libName fw v6 redist fileIsPresent s).2.live
        = s.live ++ [s.nextHandle]
    ∧ (obs_module_load ora libName fw v6 redist fileIsPresent s).2.ndiLib = some iface := by
  simp only [load_ndilib_mac] at hsome
  obtain ⟨hll, hlv, hld, hlr, -⟩ := load_from_some _ _ _ _ hsome
  simp only [obs_module_load, load_ndilib_mac, hsome, hinit, hver]
  exact ⟨rfl, hlr, hld, hll, hlv, rfl⟩

/-- Witness for C8: the concrete below-minimum oracle (version 5.9.1). -/
theorem version_unsupported_no_release_witness :
    ((load_ndilib_mac oraOldVer "libndi.dylib" "/fw" "" "" fsAll initSt).1
        = some { initializeOk := true, versionStr := "5.9.1" })
    ∧ (is_version_supported (ndi_version_short "5.9.1") min_ndi_version = false)
    ∧ (obs_module_load oraOldVer "libndi.dylib" "/fw" "" "" fsAll initSt).1 = false
    ∧ (obs_module_load oraOldVer "libndi.dylib" "/fw" "" "" fsAll initSt).2.registrations
        = initSt.registrations :=
  ⟨by decide, by decide,
   (version_unsupported_no_release oraOldVer "libndi.dylib" "/fw" "" "" fsAll initSt
      { initializeOk := true, versionStr := "5.9.1" } (by decide) (by decide) (by decide)).1,
   (version_unsupported_no_release oraOldVer "libndi.dylib" "/fw" "" "" fsAll initSt
      { initializeOk := true, versionStr := "5.9.1" } (by decide) (by decide) (by decide)).2.1⟩

/-- C10: once the locator has settled on one path, a failing load() or a
missing entry symbol makes load_ndilib return null immediately: exactly
one load attempt is made (on the selected path) and no other candidate
location is tried, whatever the oracle would do elsewhere. -/
theorem load_no_fallback (ora : Oracle) (libName fw v6 redist : String)
    (fileIsPresent : String → Bool)
    (hne : mac_locate libName fileIsPresent (macLocations fw v6 redist) ≠ "")
    (hfail : ora.loadOk (mac_locate libName fileIsPresent (macLocations fw v6 redist)) = false
      ∨ ora.hasEntry (mac_locate libName fileIsPresent (macLocations fw v6 redist)) = false) :
    (load_ndilib_mac ora libName fw v6 redist fileIsPresent initSt).1 = none
    ∧ (load_ndilib_mac ora libName fw v6 redist fileIsPresent initSt).2.attempts
        = [mac_locate libName fileIsPresent (macLocations fw v6 redist)] := by
  simp only [load_ndilib_mac, load_ndilib_from, if_neg hne]
  rcases hfail with hf | hf
  · rw [if_neg (by simp [hf])]
    exact ⟨rfl, rfl⟩
  · by_cases hl : ora.loadOk (mac_locate libName fileIsPresent (macLocations fw v6 redist)) = true
    · rw [if_pos hl, if_neg (by simp [hf])]
      exact ⟨rfl, rfl⟩
    · rw [if_neg hl]
      exact ⟨rfl, rfl⟩

/-- Witness for C10: the bundled file is selected, its image fails to
load, and a loadable image in /usr/lib is never attempted. -/
theorem load_no_fallback_witness :
    (mac_locate "libndi.dylib" fsBundledAndSystem (macLocations "/fw" "" "") ≠ "")
    ∧ (oraSelective.loadOk
        (mac_locate "libndi.dylib" fsBundledAndSystem (macLocations "/fw" "" "")) = false)
    ∧ (load_ndilib_mac oraSelective "libndi.dylib" "/fw" "" "" fsBundledAndSystem initSt).1
        = none
    ∧ (load_ndilib_mac oraSelective "libndi.dylib" "/fw" "" "" fsBundledAndSystem initSt).2.attempts
        = [mac_locate "libndi.dylib" fsBundledAndSystem (macLocations "/fw" "" "")] :=
  ⟨by decide, by decide,
   (load_no_fallback oraSelective "libndi.dylib" "/fw" "" "" fsBundledAndSystem
      (by decide) (Or.inl (by decide))).1,
   (load_no_fallback oraSelective "libndi.dylib" "/fw" "" "" fsBundledAndSystem
      (by decide) (Or.inl (by decide))).2⟩

theorem unload_initSt : obs_module_unload initSt = initSt := rfl

theorem run_no_loads (ops : List Op) (h : ops.filter Op.isLoad = []) :
    run ops = initSt := by
  induction ops with
  | nil => rfl
  | cons op l ih =>
    rw [List.filter_cons] at h
    cases op with
    | load ora libName fw v6 redist fileIsPresent =>
      simp [Op.isLoad] at h
    | unload =>
      have h' : l.filter Op.isLoad = [] := by simpa [Op.isLoad] using h
      show l.foldl stepOp (stepOp initSt Op.unload) = initSt
      rw [show stepOp initSt Op.unload = initSt from rfl]
      exact ih h'

theorem load_from_init_cases (ora : Oracle) (p : String) :
    ((load_ndilib_from ora p initSt).2.live = []
      ∧ (load_ndilib_from ora p initSt).2.loaded_lib = none
      ∧ (load_ndilib_from ora p initSt).1 = none)
    ∨ ((load_ndilib_from ora p initSt).2.live = [0]
      ∧ (load_ndilib_from ora p initSt).2.loaded_lib = some 0) := by
  unfold load_ndilib_from
  by_cases hp : p = ""
  · rw [if_pos hp]
    exact Or.inl ⟨rfl, rfl, rfl⟩
  · rw [if_neg hp]
    by_cases hl : ora.loadOk p = true
    · rw [if_pos hl]
      by_cases he : ora.hasEntry p = true
      · rw [if_pos he]
        exact Or.inr ⟨rfl, rfl⟩
      · rw [if_neg he]
        exact Or.inr ⟨rfl, rfl⟩
    · rw [if_neg hl]
      exact Or.inl ⟨rfl, rfl, rfl⟩

theorem obs_module_load_frame (ora : Oracle) (libName fw v6 redist : String)
    (fileIsPresent : String → Bool) (s : St) :
    (obs_module_load ora libName fw v6 redist fileIsPresent s).2.live
        = (load_ndilib_mac ora libName fw v6 redist fileIsPresent s).2.live
    ∧ (obs_module_load ora libName fw v6 redist fileIsPresent s).2.loaded_lib
        = (load_ndilib_mac ora libName fw v6 redist fileIsPresent s).2.loaded_lib
    ∧ (obs_module_load ora libName fw v6 redist fileIsPresent s).2.ndiLib
        = (load_ndilib_mac ora libName fw v6 redist fileIsPresent s).1 := by
  unfold obs_module_load
  rcases h : (load_ndilib_mac ora libName fw v6 redist fileIsPresent s).1 with _ | iface
  · simp [h]
  · simp only [h]
    by_cases h1 : iface.initializeOk = false
    · simp [h1]
    · by_cases h2 : is_version_supported (ndi_version_short iface.versionStr)
          min_ndi_version = false
      · simp [h1, h2]
      · simp [h1, h2]

theorem load_step_inv (ora : Oracle) (libName fw v6 redist : String)
    (fileIsPresent : String → Bool) :
    StInv ((obs_module_load ora libName fw v6 redist fileIsPresent initSt).2) := by
  obtain ⟨flive, fll, fni⟩ :=
    obs_module_load_frame ora libName fw v6 redist fileIsPresent initSt
  rcases load_from_init_cases ora
      (mac_locate libName fileIsPresent (macLocations fw v6 redist)) with
    ⟨l1, l2, l3⟩ | ⟨l1, l2⟩
  · refine ⟨?_, ?_, ?_⟩
    · rw [flive]; rw [show (load_ndilib_mac ora libName fw v6 redist fileIsPresent initSt).2
        = (load_ndilib_from ora (mac_locate libName fileIsPresent (macLocations fw v6 redist)) initSt).2 from rfl, l1]
      simp
    · intro h hmem
      rw [flive, show (load_ndilib_mac ora libName fw v6 redist fileIsPresent initSt).2
        = (load_ndilib_from ora (mac_locate libName fileIsPresent (macLocations fw v6 redist)) initSt).2 from rfl, l1] at hmem
      simp at hmem
    · intro hn
      rw [fni, show load_ndilib_mac ora libName fw v6 redist fileIsPresent initSt
        = load_ndilib_from ora (mac_locate libName fileIsPresent (macLocations fw v6 redist)) initSt from rfl, l3] at hn
      simp at hn
  · have hlive : (obs_module_load ora libName fw v6 redist fileIsPresent initSt).2.live = [0] := by
      rw [flive]; exact l1
    have hll : (obs_module_load ora libName fw v6 redist fileIsPresent initSt).2.loaded_lib = some 0 := by
      rw [fll]; exact l2
    refine ⟨?_, ?_, ?_⟩
    · rw [hlive]; simp
    · intro h hmem
      rw [hlive] at hmem
      simp at hmem
      rw [hmem, hll]
    · intro _
      rw [hlive]
      simp

theorem unload_clears (s : St) (h1 : s.live.length ≤ 1)
    (h2 : ∀ h ∈ s.live, s.loaded_lib = some h) :
    (obs_module_unload s).ndiLib = none
    ∧ (obs_module_unload s).live = []
    ∧ (obs_module_unload s).loaded_lib = s.loaded_lib := by
  obtain ⟨ll, ni, nh, lv, att, dl, ds, rg⟩ := s
  simp only at h1 h2
  cases ni <;> cases ll <;> simp only [obs_module_unload]
  · -- ndiLib = none, loaded_lib = none
    refine ⟨by trivial, ?_, by trivial⟩
    cases lv with
    | nil => rfl
    | cons a lv' => exact absurd (h2 a (List.mem_cons_self a lv')) (by simp)
  · -- ndiLib = none, loaded_lib = some h
    rename_i h
    refine ⟨by trivial, ?_, by trivial⟩
    cases lv with
    | nil => rfl
    | cons a lv' =>
      have ha : a = h := by
        have := h2 a (List.mem_cons_self a lv')
        simpa using this.symm
      have hnil : lv' = [] := by
        cases lv' with
        | nil => rfl
        | cons b m => simp at h1
      subst ha hnil
      simp
  · -- ndiLib = some i, loaded_lib = none
    rename_i i
    refine ⟨by trivial, ?_, by trivial⟩
    cases lv with
    | nil => rfl
    | cons a lv' => exact absurd (h2 a (List.mem_cons_self a lv')) (by simp)
  · -- ndiLib = some i, loaded_lib = some h
    rename_i i h
    refine ⟨by trivial, ?_, by trivial⟩
    cases lv with
    | nil => rfl
    | cons a lv' =>
      have ha : a = h := by
        have := h2 a (List.mem_cons_self a lv')
        simpa using this.symm
      have hnil : lv' = [] := by
        cases lv' with
        | nil => rfl
        | cons b m => simp at h1
      subst ha hnil
      simp

theorem unload_step_inv (s : St) (h : StInv s) : StInv (obs_module_unload s) := by
  obtain ⟨h1, h2, h3⟩ := h
  obtain ⟨u1, u2, u3⟩ := unload_clears s h1 h2
  refine ⟨by rw [u2]; simp, ?_, ?_⟩
  · intro hh hmem
    rw [u2] at hmem
    simp at hmem
  · intro hn
    rw [u1] at hn
    simp at hn

theorem reach_inv (ops : List Op)
    (hone : (ops.filter Op.isLoad).length ≤ 1) : StInv (run ops) := by
  induction ops using List.reverseRecOn with
  | nil =>
    exact ⟨by simp [run, initSt], by simp [run, initSt], by simp [run, initSt]⟩
  | append_singleton l op ih =>
    have hrun : run (l ++ [op]) = stepOp (run l) op := by
      simp [run, List.foldl_append]
    rw [hrun]
    rw [List.filter_append, List.length_append] at hone
    cases op with
    | unload =>
      have hone' : (l.filter Op.isLoad).length ≤ 1 := by
        simpa [Op.isLoad] using hone
      exact unload_step_inv _ (ih hone')
    | load ora libName fw v6 redist fileIsPresent =>
      have hl0 : l.filter Op.isLoad = [] := by
        have hlen : (l.filter Op.isLoad).length = 0 := by
          simp only [List.filter_cons, List.filter_nil, Op.isLoad, if_pos,
            List.length_cons, List.length_nil] at hone
          omega
        exact List.length_eq_zero.mp hlen
      rw [run_no_loads l hl0]
      exact load_step_inv ora libName fw v6 redist fileIsPresent

/-- C4 (amended): across every host-legal sequence of load and teardown
events (the host invokes the module-load hook at most once), at most one
handle is ever live; before any load both globals are null; the interface
pointer is non-null only while the loaded handle is the unique live one;
and after a teardown from any reachable state the interface pointer is
null and no handle is live — but the loaded_lib pointer variable itself
is not nulled by teardown and may keep its dangling value (see the
counterexample). -/
theorem lifecycle_state_invariant (ops : List Op)
    (hone : (ops.filter Op.isLoad).length ≤ 1) :
    (run ops).live.length ≤ 1
    ∧ (ops.filter Op.isLoad = [] →
        (run ops).loaded_lib = none ∧ (run ops).ndiLib = none)
    ∧ ((run ops).ndiLib ≠ none →
        ∃ h, (run ops).loaded_lib = some h ∧ (run ops).live = [h])
    ∧ ((obs_module_unload (run ops)).ndiLib = none
        ∧ (obs_module_unload (run ops)).live = []) := by
  obtain ⟨h1, h2, h3⟩ := reach_inv ops hone
  refine ⟨h1, ?_, ?_, ?_⟩
  · intro h0
    rw [run_no_loads ops h0]
    exact ⟨rfl, rfl⟩
  · intro hn
    have hne := h3 hn
    rcases hl : (run ops).live with _ | ⟨a, l⟩
    · exact absurd hl hne
    · have hnil : l = [] := by
        rw [hl] at h1
        cases l with
        | nil => rfl
        | cons b m => simp at h1
      subst hnil
      exact ⟨a, h2 a (by rw [hl]; exact List.mem_cons_self a []), rfl⟩
  · exact ⟨(unload_clears _ h1 h2).1, (unload_clears _ h1 h2).2.1⟩

/-- Witness for C4 at the concrete load-then-unload sequence. -/
theorem lifecycle_state_invariant_witness :
    ((exOps.filter Op.isLoad).length ≤ 1)
    ∧ (run exOps).live.length ≤ 1
    ∧ ((obs_module_unload (run exOps)).ndiLib = none
        ∧ (obs_module_unload (run exOps)).live = []) :=
  ⟨by decide, (lifecycle_state_invariant exOps (by decide)).1,
   (lifecycle_state_invariant exOps (by decide)).2.2.2⟩

end DistroAV
